import Mathlib

/-!
Verification development for the Multi-Source Product Review Aggregator
backend.  The definitions below are a shallow embedding of
`src/backend/src/routes/reviews.js` over a list-of-rows model of the
MySQL `reviews` table declared in `src/add-reviews-table.sql`.

Modelling conventions:
* the `reviews` table is a `List Review`; SQL `WHERE` is `List.filter`,
  `GROUP BY` groups by the deduplicated key list, `ORDER BY` is
  `List.insertionSort`;
* SQL `AVG` over the integer `rating` column is modelled as the exact
  rational mean (`none` over the empty set, as in SQL `NULL`);
* `parseFloat(x).toFixed(1)` on the nonnegative decimals produced by
  `AVG` is modelled as rounding to the nearest tenth, half upwards, and
  printing the result with exactly one digit after the decimal point;
* a JavaScript object with small integer keys (the rating histogram) is
  an association list, updated in place by key;
* absent JSON fields are `Option.none`; JavaScript truthiness tests on
  the destructured request body treat `none`, `some 0` and `some ""` as
  falsy, exactly as `!x` does in the source.
-/

/-- A row of the `reviews` table (`src/add-reviews-table.sql`), together
with the `external_id` column referenced by the INSERT statement of the
route file.  `created_at` is the server-set creation timestamp, modelled
as a natural number. -/
structure Review where
  id : Nat
  product_id : Nat
  source : String
  external_id : Option String
  reviewer_name : String
  rating : Nat
  title : String
  content : String
  review_date : Option String
  verified_purchase : Bool
  helpful_votes : Nat
  created_at : Nat
  deriving Repr, DecidableEq

/-- The `reviews` table, as a list of rows. -/
abbrev ReviewTable := List Review

/-- Rows selected by `WHERE product_id = ?`. -/
def reviewsFor (db : ReviewTable) (pid : Nat) : List Review :=
  db.filter (fun r => r.product_id == pid)

/-- The `rating` column of the rows selected for a product. -/
def ratingsFor (db : ReviewTable) (pid : Nat) : List Nat :=
  (reviewsFor db pid).map (fun r => r.rating)

/-- The `rating` column of a product's rows coming from one source. -/
def sourceRatings (db : ReviewTable) (pid : Nat) (s : String) : List Nat :=
  ((reviewsFor db pid).filter (fun r => r.source == s)).map (fun r => r.rating)

/-- Arithmetic mean of a list of naturals, as a rational (junk value `0`
on the empty list, which every use below avoids). -/
def listMean (l : List Nat) : ℚ :=
  (l.sum : ℚ) / (l.length : ℚ)

/-- SQL `AVG` over an integer column: `NULL` on the empty set, otherwise
the exact rational mean. -/
def sqlAVG (l : List Nat) : Option ℚ :=
  if l.isEmpty then none else some (listMean l)

/-- SQL `MIN` over an integer column. -/
def sqlMIN (l : List Nat) : Option Nat :=
  match l with
  | [] => none
  | x :: xs => some (xs.foldl Nat.min x)

/-- SQL `MAX` over an integer column. -/
def sqlMAX (l : List Nat) : Option Nat :=
  match l with
  | [] => none
  | x :: xs => some (xs.foldl Nat.max x)

/-- Rounding used by `parseFloat(x).toFixed(1)` on the nonnegative
decimals appearing here: the integer of tenths nearest to `q`, halves
rounded up. -/
def tenths (q : ℚ) : Int :=
  Int.floor (q * 10 + 1 / 2)

/-- Print a nonnegative number of tenths as a decimal string with
exactly one digit after the point. -/
def renderTenths (t : Nat) : String :=
  toString (t / 10) ++ "." ++ toString (t % 10)

/-- Model of `parseFloat(x).toFixed(1)` for the nonnegative values this
code applies it to. -/
def toFixed1 (q : ℚ) : String :=
  renderTenths (tenths q).toNat

/-- The property of being a decimal string with exactly one digit after
the decimal point. -/
def oneDecimalDigit (s : String) : Prop :=
  ∃ n d : Nat, d < 10 ∧ s = toString n ++ "." ++ toString d

/-- A JavaScript object with natural-number keys and values, as an
association list. -/
abbrev JsObj := List (Nat × Nat)

/-- Property assignment `o[k] = v` on a JavaScript object: replaces the
value of an existing key in place, appends a new key otherwise. -/
def jsObjSet (o : JsObj) (k v : Nat) : JsObj :=
  match o with
  | [] => [(k, v)]
  | (k', v') :: rest =>
    if k' = k then (k, v) :: rest else (k', v') :: jsObjSet rest k v

/-- Property read `o[k]` on a JavaScript object. -/
def jsObjGet (o : JsObj) (k : Nat) : Option Nat :=
  match o with
  | [] => none
  | (k', v') :: rest => if k' = k then some v' else jsObjGet rest k

/-- The object literal `{5: 0, 4: 0, 3: 0, 2: 0, 1: 0}` initialising the
rating histogram (JavaScript enumerates integer-like keys in ascending
order). -/
def initHistogram : JsObj :=
  [(1, 0), (2, 0), (3, 0), (4, 0), (5, 0)]

/-- Result row of the first query of `GET /aggregate/:productId`:
`COUNT(*)`, `AVG(rating)`, `MIN(rating)`, `MAX(rating)` over the
product's rows. -/
structure OverallRow where
  total_reviews : Nat
  average_rating : Option ℚ
  min_rating : Option Nat
  max_rating : Option Nat
  deriving Repr, DecidableEq

/-- Result row of the second query: per-source count and average, one
row per `GROUP BY source` group. -/
structure SourceRow where
  source : String
  review_count : Nat
  average_rating : ℚ
  deriving Repr, DecidableEq

/-- The first query of the aggregate route. -/
def overallStatsQuery (db : ReviewTable) (pid : Nat) : OverallRow :=
  { total_reviews := (ratingsFor db pid).length
  , average_rating := sqlAVG (ratingsFor db pid)
  , min_rating := sqlMIN (ratingsFor db pid)
  , max_rating := sqlMAX (ratingsFor db pid) }

/-- The distinct sources of a product's rows, `ORDER BY source`. -/
def sortedSources (db : ReviewTable) (pid : Nat) : List String :=
  List.insertionSort (fun a b => a ≤ b)
    (((reviewsFor db pid).map (fun r => r.source)).dedup)

/-- The second query of the aggregate route: `GROUP BY source ORDER BY
source`. -/
def sourceBreakdownQuery (db : ReviewTable) (pid : Nat) : List SourceRow :=
  (sortedSources db pid).map (fun s =>
    { source := s
    , review_count := (sourceRatings db pid s).length
    , average_rating := listMean (sourceRatings db pid s) })

/-- The distinct rating values of a product's rows, `ORDER BY rating
DESC`. -/
def ratingsDesc (db : ReviewTable) (pid : Nat) : List Nat :=
  List.insertionSort (fun a b => b ≤ a) ((ratingsFor db pid).dedup)

/-- The third query of the aggregate route: `GROUP BY rating ORDER BY
rating DESC`, one `(rating, count)` row per group. -/
def histogramQuery (db : ReviewTable) (pid : Nat) : List (Nat × Nat) :=
  (ratingsDesc db pid).map (fun v =>
    (v, (reviewsFor db pid).countP (fun r => r.rating == v)))

/-- The `histogram.forEach(row => ratingHistogram[row.rating] =
row.count)` loop over the initial histogram object. -/
def buildHistogram (rows : List (Nat × Nat)) : JsObj :=
  rows.foldl (fun acc kv => jsObjSet acc kv.1 kv.2) initHistogram

/-- The `overall` part of the aggregate response body. -/
structure Overall where
  average_rating : String
  total_reviews : Nat
  min_rating : Nat
  max_rating : Nat
  deriving Repr, DecidableEq

/-- One entry of the `source_breakdown` part of the response body. -/
structure SourceEntry where
  source : String
  average_rating : String
  review_count : Nat
  deriving Repr, DecidableEq

/-- The `data` object of the aggregate response body. -/
structure AggregateData where
  overall : Overall
  source_breakdown : List SourceEntry
  rating_histogram : JsObj
  deriving Repr, DecidableEq

/-- Response assembly of `GET /aggregate/:productId`: the three query
results are formatted into the JSON body.  An absent (`NULL`) average
renders as `"0.0"`, and `min_rating || 0` and `max_rating || 0`
coalesce SQL `NULL` to `0`. -/
def aggregateHandler (db : ReviewTable) (pid : Nat) : AggregateData :=
  let o := overallStatsQuery db pid
  let sb := sourceBreakdownQuery db pid
  let hg := histogramQuery db pid
  { overall :=
      { average_rating :=
          match o.average_rating with
          | none => "0.0"
          | some q => toFixed1 q
      , total_reviews := o.total_reviews
      , min_rating := o.min_rating.getD 0
      , max_rating := o.max_rating.getD 0 }
  , source_breakdown := sb.map (fun s =>
      { source := s.source
      , average_rating := toFixed1 s.average_rating
      , review_count := s.review_count })
  , rating_histogram := buildHistogram hg }

/-- Run one `SELECT` statement: it computes a result from the table and
leaves the table unchanged. -/
def runSelect (db : ReviewTable) (q : ReviewTable → α) : α × ReviewTable :=
  (q db, db)

/-- The aggregate endpoint as a state transformer over the table: three
`SELECT` statements in sequence, then response assembly. -/
def aggregateEndpoint (db : ReviewTable) (pid : Nat) :
    AggregateData × ReviewTable :=
  let s1 := runSelect db (fun d => overallStatsQuery d pid)
  let s2 := runSelect s1.2 (fun d => sourceBreakdownQuery d pid)
  let s3 := runSelect s2.2 (fun d => histogramQuery d pid)
  ({ overall :=
      { average_rating :=
          match s1.1.average_rating with
          | none => "0.0"
          | some q => toFixed1 q
      , total_reviews := s1.1.total_reviews
      , min_rating := s1.1.min_rating.getD 0
      , max_rating := s1.1.max_rating.getD 0 }
   , source_breakdown := s2.1.map (fun s =>
      { source := s.source
      , average_rating := toFixed1 s.average_rating
      , review_count := s.review_count })
   , rating_histogram := buildHistogram s3.1 }, s3.2)

/-- Query parameters of `GET /reviews`.  A field is `some v` when the
query string supplies that parameter (with a nonempty, hence truthy,
value) and `none` when it is absent. -/
structure ListFilter where
  product_id : Option Nat := none
  source : Option String := none
  min_rating : Option Nat := none
  max_rating : Option Nat := none
  limit : Option Nat := none
  offset : Option Nat := none
  deriving Repr, DecidableEq

/-- The conjunction of `WHERE` clauses built by the filtered list query:
each supplied parameter appends one `AND` condition. -/
def matchesFilter (f : ListFilter) (r : Review) : Bool :=
  (match f.product_id with | none => true | some p => r.product_id == p) &&
  (match f.source with | none => true | some s => r.source == s) &&
  (match f.min_rating with | none => true | some m => m ≤ r.rating) &&
  (match f.max_rating with | none => true | some m => r.rating ≤ m)

/-- Ordering relation of `ORDER BY created_at DESC`: earlier list
positions carry later (or equal) creation times. -/
def createdDesc (a b : Review) : Prop :=
  b.created_at ≤ a.created_at

instance : DecidableRel createdDesc :=
  fun a b => Nat.decLe b.created_at a.created_at

instance : IsTotal Review createdDesc :=
  ⟨fun a b => (le_total b.created_at a.created_at).elim Or.inl Or.inr⟩

instance : IsTrans Review createdDesc :=
  ⟨fun _ _ _ h1 h2 => le_trans h2 h1⟩

/-- The query of `GET /reviews`: filter, order by creation time
descending, then `LIMIT ? OFFSET ?` with defaults `limit = 50` and
`offset = 0`.  The `LEFT JOIN products` of the source only decorates
each row with the product name (the products table is keyed uniquely by
id), so the row list itself is unchanged and the join is modelled away. -/
def listReviews (db : ReviewTable) (f : ListFilter) : List Review :=
  let filtered := db.filter (matchesFilter f)
  let ordered := List.insertionSort createdDesc filtered
  (ordered.drop (f.offset.getD 0)).take (f.limit.getD 50)

/-- Request body of `POST /reviews`, as destructured by the handler.
Absent JSON fields are `none`; `verified_purchase` and `helpful_votes`
carry the handler's destructuring defaults. -/
structure ReviewInput where
  product_id : Option Nat := none
  source : Option String := none
  external_id : Option String := none
  reviewer_name : Option String := none
  rating : Option Int := none
  title : Option String := none
  content : Option String := none
  review_date : Option String := none
  verified_purchase : Bool := false
  helpful_votes : Nat := 0
  deriving Repr, DecidableEq

/-- JavaScript truthiness of a possibly absent numeric field: `!x` is
true for `undefined` and for `0`. -/
def natTruthy (x : Option Nat) : Bool :=
  match x with
  | none => false
  | some n => n != 0

/-- JavaScript truthiness of a possibly absent integer field. -/
def intTruthy (x : Option Int) : Bool :=
  match x with
  | none => false
  | some i => i != 0

/-- JavaScript truthiness of a possibly absent string field: `!x` is
true for `undefined` and for the empty string. -/
def strTruthy (x : Option String) : Bool :=
  match x with
  | none => false
  | some s => !s.isEmpty

/-- The handler's required-field guard: `!product_id || !source ||
!reviewer_name || !rating || !title || !content`, negated. -/
def requiredTruthy (inp : ReviewInput) : Bool :=
  natTruthy inp.product_id && strTruthy inp.source &&
  strTruthy inp.reviewer_name && intTruthy inp.rating &&
  strTruthy inp.title && strTruthy inp.content

/-- The 400 message of the required-field guard. -/
def missingFieldsMsg : String :=
  "Missing required fields: product_id, source, reviewer_name, rating, title, content"

/-- The 400 message of the rating-range guard. -/
def ratingRangeMsg : String :=
  "Rating must be between 1 and 5"

/-- Response of `POST /reviews`: a 400 with a message, or a 201 whose
body echoes the stored row. -/
inductive PostResponse where
  | badRequest (message : String)
  | created (row : Review)
  deriving Repr, DecidableEq

/-- The identifier AUTO_INCREMENT assigns to the next inserted row,
modelled as one past the largest id in the table. -/
def nextId (db : ReviewTable) : Nat :=
  (db.map (fun r => r.id)).foldl Nat.max 0 + 1

/-- The `POST /reviews` handler: required-field truthiness guard, then
the rating-range guard, then `INSERT ... NOW()`.  On the insert path all
required fields are truthy, so the `getD` defaults are never the values
stored; the 201 body echoes the row (the stored `created_at` is set by
the server clock `now`). -/
def postReviews (db : ReviewTable) (now : Nat) (inp : ReviewInput) :
    PostResponse × ReviewTable :=
  if !requiredTruthy inp then
    (.badRequest missingFieldsMsg, db)
  else if inp.rating.getD 0 < 1 || 5 < inp.rating.getD 0 then
    (.badRequest ratingRangeMsg, db)
  else
    let row : Review :=
      { id := nextId db
      , product_id := inp.product_id.getD 0
      , source := inp.source.getD ""
      , external_id := inp.external_id
      , reviewer_name := inp.reviewer_name.getD ""
      , rating := (inp.rating.getD 0).toNat
      , title := inp.title.getD ""
      , content := inp.content.getD ""
      , review_date := inp.review_date
      , verified_purchase := inp.verified_purchase
      , helpful_votes := inp.helpful_votes
      , created_at := now }
    (.created row, db ++ [row])

/-- Response of `DELETE /reviews/:id`: a 404 or an empty 204. -/
inductive DeleteResponse where
  | notFound
  | noContent
  deriving Repr, DecidableEq

/-- The `DELETE /reviews/:id` handler: run `DELETE FROM reviews WHERE
id = ?`, answer 404 when `affectedRows` is zero and 204 otherwise. -/
def deleteReviews (db : ReviewTable) (rid : Nat) :
    DeleteResponse × ReviewTable :=
  let affected := db.countP (fun r => r.id == rid)
  if affected == 0 then
    (.notFound, db)
  else
    (.noContent, db.filter (fun r => r.id != rid))

/-- A sample table: the worked scenario of the specification, product 1
with reviews (Amazon, 5), (Amazon, 3), (BestBuy, 4). -/
def sampleDb : ReviewTable :=
  [ { id := 1, product_id := 1, source := "Amazon", external_id := none
    , reviewer_name := "A", rating := 5, title := "t1", content := "c1"
    , review_date := none, verified_purchase := true, helpful_votes := 0
    , created_at := 10 }
  , { id := 2, product_id := 1, source := "Amazon", external_id := none
    , reviewer_name := "B", rating := 3, title := "t2", content := "c2"
    , review_date := none, verified_purchase := false, helpful_votes := 1
    , created_at := 20 }
  , { id := 3, product_id := 1, source := "BestBuy", external_id := none
    , reviewer_name := "C", rating := 4, title := "t3", content := "c3"
    , review_date := none, verified_purchase := true, helpful_votes := 2
    , created_at := 30 } ]

/-! Helper lemmas. -/

lemma toFixed1_oneDecimalDigit (q : ℚ) : oneDecimalDigit (toFixed1 q) :=
  ⟨(tenths q).toNat / 10, (tenths q).toNat % 10,
    Nat.mod_lt _ (by norm_num), rfl⟩

lemma ratingsFor_isEmpty_false {db : ReviewTable} {pid : Nat}
    (h : reviewsFor db pid ≠ []) : (ratingsFor db pid).isEmpty = false := by
  cases hrv : reviewsFor db pid with
  | nil => exact absurd hrv h
  | cons a l => simp [ratingsFor, hrv]

/-- C1: for every product with at least one review, the aggregate's
`overall.total_reviews` is the number of that product's reviews and
`overall.average_rating` is the arithmetic mean of their ratings,
formatted as a string with exactly one decimal digit. -/
theorem aggregate_mean_and_count (db : ReviewTable) (pid : Nat)
    (h : reviewsFor db pid ≠ []) :
    (aggregateHandler db pid).overall.total_reviews = (reviewsFor db pid).length ∧
    (aggregateHandler db pid).overall.average_rating =
      toFixed1 (listMean ((reviewsFor db pid).map (fun r => r.rating))) ∧
    oneDecimalDigit (aggregateHandler db pid).overall.average_rating := by
  refine ⟨?_, ?_, ?_⟩
  · simp [aggregateHandler, overallStatsQuery, ratingsFor]
  · simp [aggregateHandler, overallStatsQuery, sqlAVG, ratingsFor, h]
  · simp [aggregateHandler, overallStatsQuery, sqlAVG, ratingsFor, h]
    exact toFixed1_oneDecimalDigit _

/-- Witness for C1 at the specification's worked scenario. -/
theorem aggregate_mean_and_count_witness :
    (aggregateHandler sampleDb 1).overall.total_reviews = (reviewsFor sampleDb 1).length ∧
    (aggregateHandler sampleDb 1).overall.average_rating =
      toFixed1 (listMean ((reviewsFor sampleDb 1).map (fun r => r.rating))) ∧
    oneDecimalDigit (aggregateHandler sampleDb 1).overall.average_rating :=
  aggregate_mean_and_count sampleDb 1 (by decide)

/-- C5: for every product with zero reviews the aggregate reports zero
total reviews, the string "0.0" as average, and a histogram that maps
each of the five rating values to 0, omitting none. -/
theorem aggregate_empty_product (db : ReviewTable) (pid : Nat)
    (h : reviewsFor db pid = []) :
    (aggregateHandler db pid).overall.total_reviews = 0 ∧
    (aggregateHandler db pid).overall.average_rating = "0.0" ∧
    ∀ k, 1 ≤ k → k ≤ 5 →
      jsObjGet (aggregateHandler db pid).rating_histogram k = some 0 := by
  refine ⟨?_, ?_, ?_⟩
  · simp [aggregateHandler, overallStatsQuery, ratingsFor, h]
  · simp [aggregateHandler, overallStatsQuery, sqlAVG, ratingsFor, h]
  · intro k h1 h5
    have hh : (aggregateHandler db pid).rating_histogram = initHistogram := by
      simp [aggregateHandler, histogramQuery, ratingsDesc, ratingsFor, h,
        buildHistogram]
    rw [hh]
    interval_cases k <;> rfl

/-- Witness for C5 at a product with no reviews. -/
theorem aggregate_empty_product_witness :
    (aggregateHandler sampleDb 99).overall.total_reviews = 0 ∧
    (aggregateHandler sampleDb 99).overall.average_rating = "0.0" ∧
    jsObjGet (aggregateHandler sampleDb 99).rating_histogram 1 = some 0 ∧
    jsObjGet (aggregateHandler sampleDb 99).rating_histogram 2 = some 0 ∧
    jsObjGet (aggregateHandler sampleDb 99).rating_histogram 3 = some 0 ∧
    jsObjGet (aggregateHandler sampleDb 99).rating_histogram 4 = some 0 ∧
    jsObjGet (aggregateHandler sampleDb 99).rating_histogram 5 = some 0 := by
  have h := aggregate_empty_product sampleDb 99 (by decide)
  exact ⟨h.1, h.2.1, h.2.2 1 (by decide) (by decide), h.2.2 2 (by decide) (by decide),
    h.2.2 3 (by decide) (by decide), h.2.2 4 (by decide) (by decide),
    h.2.2 5 (by decide) (by decide)⟩

/-- C10: for every product with zero reviews the aggregate reports
`min_rating = 0` and `max_rating = 0`, the coalesced value of the NULL
results of MIN and MAX over an empty set. -/
theorem aggregate_empty_min_max (db : ReviewTable) (pid : Nat)
    (h : reviewsFor db pid = []) :
    (aggregateHandler db pid).overall.min_rating = 0 ∧
    (aggregateHandler db pid).overall.max_rating = 0 := by
  constructor <;>
    simp [aggregateHandler, overallStatsQuery, sqlMIN, sqlMAX, ratingsFor, h]

/-- Witness for C10 at a product with no reviews. -/
theorem aggregate_empty_min_max_witness :
    (aggregateHandler sampleDb 99).overall.min_rating = 0 ∧
    (aggregateHandler sampleDb 99).overall.max_rating = 0 :=
  aggregate_empty_min_max sampleDb 99 (by decide)

/-- C9: the aggregate endpoint leaves the review table unchanged, and a
second call over the unchanged table returns the identical result. -/
theorem aggregate_idempotent (db : ReviewTable) (pid : Nat) :
    (aggregateEndpoint db pid).2 = db ∧
    (aggregateEndpoint ((aggregateEndpoint db pid).2) pid).1 =
      (aggregateEndpoint db pid).1 :=
  ⟨rfl, rfl⟩

lemma breakdown_sources (db : ReviewTable) (pid : Nat) :
    (aggregateHandler db pid).source_breakdown.map (fun e => e.source) =
      sortedSources db pid := by
  simp only [aggregateHandler, sourceBreakdownQuery, List.map_map]
  exact List.map_id _

/-- C6: the source breakdown has exactly one entry per distinct source
of the product's reviews, entries are in alphabetical source order, and
each entry carries that source's review count and mean rating formatted
to one decimal digit. -/
theorem aggregate_source_breakdown (db : ReviewTable) (pid : Nat) :
    ((aggregateHandler db pid).source_breakdown.map (fun e => e.source)).Nodup ∧
    (∀ s, s ∈ (aggregateHandler db pid).source_breakdown.map (fun e => e.source) ↔
      s ∈ (reviewsFor db pid).map (fun r => r.source)) ∧
    ((aggregateHandler db pid).source_breakdown.map
      (fun e => e.source)).Sorted (fun a b => a ≤ b) ∧
    ∀ e ∈ (aggregateHandler db pid).source_breakdown,
      e.review_count =
        ((reviewsFor db pid).filter (fun r => r.source == e.source)).length ∧
      e.average_rating = toFixed1 (listMean (sourceRatings db pid e.source)) := by
  have hmap := breakdown_sources db pid
  refine ⟨?_, ?_, ?_, ?_⟩
  · rw [hmap]
    exact ((List.perm_insertionSort _ _).nodup_iff).mpr (List.nodup_dedup _)
  · intro s
    rw [hmap]
    simp [sortedSources, (List.perm_insertionSort _ _).mem_iff, List.mem_dedup]
  · rw [hmap]
    exact List.sorted_insertionSort _ _
  · intro e he
    simp only [aggregateHandler, sourceBreakdownQuery, List.map_map,
      List.mem_map] at he
    obtain ⟨a, _, rfl⟩ := he
    constructor
    · simp [sourceRatings]
    · rfl

/-- Witness for C6 at the specification's worked scenario. -/
theorem aggregate_source_breakdown_witness :
    ((aggregateHandler sampleDb 1).source_breakdown.map (fun e => e.source)).Nodup ∧
    ("BestBuy" ∈ (aggregateHandler sampleDb 1).source_breakdown.map
      (fun e => e.source) ↔
      "BestBuy" ∈ (reviewsFor sampleDb 1).map (fun r => r.source)) ∧
    ((aggregateHandler sampleDb 1).source_breakdown.map
      (fun e => e.source)).Sorted (fun a b => a ≤ b) := by
  have h := aggregate_source_breakdown sampleDb 1
  exact ⟨h.1, h.2.1 "BestBuy", h.2.2.1⟩

lemma listReviews_subset_filter (db : ReviewTable) (f : ListFilter) :
    ∀ r ∈ listReviews db f, matchesFilter f r = true := by
  intro r hr
  simp only [listReviews] at hr
  have h1 : r ∈ List.insertionSort createdDesc (db.filter (matchesFilter f)) :=
    ((List.take_sublist _ _).trans (List.drop_sublist _ _)).subset hr
  have h2 : r ∈ db.filter (matchesFilter f) :=
    (List.perm_insertionSort _ _).mem_iff.mp h1
  exact (List.mem_filter.mp h2).2

/-- C7: the list endpoint returns at most `limit` reviews, every
returned review satisfies each supplied filter condition, the page is
ordered by creation time descending, and an unspecified limit defaults
to the constant 50. -/
theorem list_reviews_page (db : ReviewTable) (f : ListFilter) :
    (listReviews db f).length ≤ f.limit.getD 50 ∧
    (∀ r ∈ listReviews db f,
      (∀ p, f.product_id = some p → r.product_id = p) ∧
      (∀ s, f.source = some s → r.source = s) ∧
      (∀ m, f.min_rating = some m → m ≤ r.rating) ∧
      (∀ m, f.max_rating = some m → r.rating ≤ m)) ∧
    (listReviews db f).Sorted createdDesc ∧
    (f.limit = none →
      listReviews db f = listReviews db { f with limit := some 50 }) := by
  refine ⟨?_, ?_, ?_, ?_⟩
  · simp only [listReviews]
    rw [List.length_take]
    exact min_le_left _ _
  · intro r hr
    have hm := listReviews_subset_filter db f r hr
    simp only [matchesFilter, Bool.and_eq_true] at hm
    obtain ⟨⟨⟨hp, hs⟩, hmin⟩, hmax⟩ := hm
    refine ⟨?_, ?_, ?_, ?_⟩
    · intro p hfp
      rw [hfp] at hp
      simpa using hp
    · intro s hfs
      rw [hfs] at hs
      simpa using hs
    · intro m hfm
      rw [hfm] at hmin
      simpa using hmin
    · intro m hfm
      rw [hfm] at hmax
      simpa using hmax
  · have hs : (List.insertionSort createdDesc
        (db.filter (matchesFilter f))).Sorted createdDesc :=
      List.sorted_insertionSort _ _
    exact List.Pairwise.sublist
      ((List.take_sublist _ _).trans (List.drop_sublist _ _)) hs
  · intro hnone
    simp only [listReviews, hnone]
    rfl

/-- Witness for C7 at the sample table with a minimum-rating filter and
no explicit limit. -/
theorem list_reviews_page_witness :
    (listReviews sampleDb { min_rating := some 4 }).length ≤ 50 ∧
    (listReviews sampleDb { min_rating := some 4 }).Sorted createdDesc ∧
    listReviews sampleDb { min_rating := some 4 } =
      listReviews sampleDb { min_rating := some 4, limit := some 50 } := by
  have h := list_reviews_page sampleDb { min_rating := some 4 }
  exact ⟨h.1, h.2.2.1, h.2.2.2 rfl⟩

lemma jsObjGet_set_self (o : JsObj) (k v : Nat) :
    jsObjGet (jsObjSet o k v) k = some v := by
  induction o with
  | nil => simp [jsObjSet, jsObjGet]
  | cons kv rest ih =>
    obtain ⟨k', v'⟩ := kv
    by_cases h : k' = k
    · simp [jsObjSet, jsObjGet, h]
    · simp [jsObjSet, jsObjGet, h, ih]

lemma jsObjGet_set_other (o : JsObj) (k v k' : Nat) (h : k' ≠ k) :
    jsObjGet (jsObjSet o k v) k' = jsObjGet o k' := by
  have hne : ¬k = k' := fun hh => h hh.symm
  induction o with
  | nil => simp [jsObjSet, jsObjGet, hne]
  | cons kv rest ih =>
    obtain ⟨k0, v0⟩ := kv
    by_cases h0 : k0 = k
    · subst h0
      simp [jsObjSet, jsObjGet, hne]
    · simp [jsObjSet, jsObjGet, h0, ih]

lemma jsObjGet_writes_not_mem (ws : List (Nat × Nat)) (o : JsObj) (k : Nat)
    (h : k ∉ ws.map Prod.fst) :
    jsObjGet (ws.foldl (fun acc kv => jsObjSet acc kv.1 kv.2) o) k =
      jsObjGet o k := by
  induction ws generalizing o with
  | nil => rfl
  | cons w ws ih =>
    simp only [List.map_cons, List.mem_cons, not_or] at h
    rw [List.foldl_cons, ih _ h.2, jsObjGet_set_other _ _ _ _ h.1]

lemma jsObjGet_writes_mem (ws : List (Nat × Nat)) (o : JsObj) (k v : Nat)
    (hnd : (ws.map Prod.fst).Nodup) (hmem : (k, v) ∈ ws) :
    jsObjGet (ws.foldl (fun acc kv => jsObjSet acc kv.1 kv.2) o) k = some v := by
  induction ws generalizing o with
  | nil => cases hmem
  | cons w ws ih =>
    simp only [List.map_cons, List.nodup_cons] at hnd
    rcases List.mem_cons.mp hmem with h | h
    · subst h
      rw [List.foldl_cons,
        jsObjGet_writes_not_mem ws _ k (by simpa using hnd.1),
        jsObjGet_set_self]
    · rw [List.foldl_cons]
      exact ih _ hnd.2 h

lemma histogramQuery_keys (db : ReviewTable) (pid : Nat) :
    (histogramQuery db pid).map Prod.fst = ratingsDesc db pid := by
  simp only [histogramQuery, List.map_map]
  exact List.map_id _

lemma ratingsDesc_nodup (db : ReviewTable) (pid : Nat) :
    (ratingsDesc db pid).Nodup :=
  ((List.perm_insertionSort _ _).nodup_iff).mpr (List.nodup_dedup _)

lemma mem_ratingsDesc (db : ReviewTable) (pid : Nat) (k : Nat) :
    k ∈ ratingsDesc db pid ↔ k ∈ ratingsFor db pid := by
  simp [ratingsDesc, (List.perm_insertionSort _ _).mem_iff, List.mem_dedup]

lemma histogram_lookup (db : ReviewTable) (pid : Nat) (k : Nat)
    (h1 : 1 ≤ k) (h5 : k ≤ 5) :
    jsObjGet (buildHistogram (histogramQuery db pid)) k =
      some ((reviewsFor db pid).countP (fun r => r.rating == k)) := by
  by_cases hk : k ∈ ratingsDesc db pid
  · have hmem : (k, (reviewsFor db pid).countP (fun r => r.rating == k)) ∈
        histogramQuery db pid := by
      simp only [histogramQuery, List.mem_map]
      exact ⟨k, hk, rfl⟩
    have hnd : ((histogramQuery db pid).map Prod.fst).Nodup := by
      rw [histogramQuery_keys]
      exact ratingsDesc_nodup db pid
    exact jsObjGet_writes_mem _ _ _ _ hnd hmem
  · have hno : k ∉ (histogramQuery db pid).map Prod.fst := by
      rw [histogramQuery_keys]
      exact hk
    have hcount : (reviewsFor db pid).countP (fun r => r.rating == k) = 0 := by
      rw [List.countP_eq_zero]
      intro r hr
      simp only [beq_iff_eq]
      intro hrk
      exact hk ((mem_ratingsDesc db pid k).mpr (List.mem_map.mpr ⟨r, hr, hrk⟩))
    rw [buildHistogram, jsObjGet_writes_not_mem _ _ _ hno, hcount]
    interval_cases k <;> rfl

lemma countP_rating_partition (rows : List Review)
    (h : ∀ r ∈ rows, 1 ≤ r.rating ∧ r.rating ≤ 5) :
    rows.countP (fun r => r.rating == 1) + rows.countP (fun r => r.rating == 2) +
    rows.countP (fun r => r.rating == 3) + rows.countP (fun r => r.rating == 4) +
    rows.countP (fun r => r.rating == 5) = rows.length := by
  induction rows with
  | nil => rfl
  | cons a l ih =>
    have ha := h a (List.mem_cons_self a l)
    have hl := ih (fun r hr => h r (List.mem_cons_of_mem a hr))
    have hcase : a.rating = 1 ∨ a.rating = 2 ∨ a.rating = 3 ∨ a.rating = 4 ∨
        a.rating = 5 := by omega
    rcases hcase with h1 | h1 | h1 | h1 | h1 <;>
      simp [List.countP_cons, h1] <;> omega

lemma source_counts_sum (rows : List Review) :
    ((List.insertionSort (fun a b => a ≤ b)
        ((rows.map (fun r => r.source)).dedup)).map
      (fun s => rows.countP (fun r => r.source == s))).sum = rows.length := by
  have hperm := (List.perm_insertionSort (fun a b : String => a ≤ b)
    ((rows.map (fun r => r.source)).dedup)).map
    (fun s => rows.countP (fun r => r.source == s))
  rw [hperm.sum_eq]
  have hlen := List.sum_map_count_dedup_eq_length (rows.map (fun r => r.source))
  rw [List.length_map] at hlen
  rw [← hlen]
  apply congrArg
  apply List.map_congr_left
  intro s _
  rw [List.count, List.countP_map]
  rfl

/-- C2: when every rating of the product's reviews is in 1..5, the five
histogram counts sum to `overall.total_reviews`, and the per-source
counts of `source_breakdown` also sum to `overall.total_reviews`. -/
theorem aggregate_count_invariants (db : ReviewTable) (pid : Nat)
    (h : ∀ r ∈ reviewsFor db pid, 1 ≤ r.rating ∧ r.rating ≤ 5) :
    (jsObjGet (aggregateHandler db pid).rating_histogram 1).getD 0 +
    (jsObjGet (aggregateHandler db pid).rating_histogram 2).getD 0 +
    (jsObjGet (aggregateHandler db pid).rating_histogram 3).getD 0 +
    (jsObjGet (aggregateHandler db pid).rating_histogram 4).getD 0 +
    (jsObjGet (aggregateHandler db pid).rating_histogram 5).getD 0 =
      (aggregateHandler db pid).overall.total_reviews ∧
    ((aggregateHandler db pid).source_breakdown.map
      (fun e => e.review_count)).sum =
      (aggregateHandler db pid).overall.total_reviews := by
  have htot : (aggregateHandler db pid).overall.total_reviews =
      (reviewsFor db pid).length := by
    simp [aggregateHandler, overallStatsQuery, ratingsFor]
  have hh : (aggregateHandler db pid).rating_histogram =
      buildHistogram (histogramQuery db pid) := rfl
  constructor
  · rw [hh, htot,
      histogram_lookup db pid 1 (by norm_num) (by norm_num),
      histogram_lookup db pid 2 (by norm_num) (by norm_num),
      histogram_lookup db pid 3 (by norm_num) (by norm_num),
      histogram_lookup db pid 4 (by norm_num) (by norm_num),
      histogram_lookup db pid 5 (by norm_num) (by norm_num)]
    simp only [Option.getD_some]
    exact countP_rating_partition _ h
  · have hmapcount : (aggregateHandler db pid).source_breakdown.map
        (fun e => e.review_count) =
        (sortedSources db pid).map
          (fun s => (reviewsFor db pid).countP (fun r => r.source == s)) := by
      simp only [aggregateHandler, sourceBreakdownQuery, List.map_map]
      apply List.map_congr_left
      intro s _
      simp [sourceRatings, List.countP_eq_length_filter]
    rw [hmapcount, htot, sortedSources]
    exact source_counts_sum (reviewsFor db pid)

/-- Witness for C2 at the specification's worked scenario. -/
theorem aggregate_count_invariants_witness :
    (jsObjGet (aggregateHandler sampleDb 1).rating_histogram 1).getD 0 +
    (jsObjGet (aggregateHandler sampleDb 1).rating_histogram 2).getD 0 +
    (jsObjGet (aggregateHandler sampleDb 1).rating_histogram 3).getD 0 +
    (jsObjGet (aggregateHandler sampleDb 1).rating_histogram 4).getD 0 +
    (jsObjGet (aggregateHandler sampleDb 1).rating_histogram 5).getD 0 =
      (aggregateHandler sampleDb 1).overall.total_reviews ∧
    ((aggregateHandler sampleDb 1).source_breakdown.map
      (fun e => e.review_count)).sum =
      (aggregateHandler sampleDb 1).overall.total_reviews :=
  aggregate_count_invariants sampleDb 1 (by decide)

lemma length_le_sum (l : List Nat) (h : ∀ x ∈ l, 1 ≤ x) :
    l.length ≤ l.sum := by
  induction l with
  | nil => simp
  | cons a t ih =>
    have ha := h a (List.mem_cons_self a t)
    have ht := ih (fun x hx => h x (List.mem_cons_of_mem a hx))
    simp only [List.length_cons, List.sum_cons]
    omega

lemma sum_le_five_mul (l : List Nat) (h : ∀ x ∈ l, x ≤ 5) :
    l.sum ≤ 5 * l.length := by
  induction l with
  | nil => simp
  | cons a t ih =>
    have ha := h a (List.mem_cons_self a t)
    have ht := ih (fun x hx => h x (List.mem_cons_of_mem a hx))
    simp only [List.length_cons, List.sum_cons]
    omega

lemma listMean_bounds (l : List Nat) (hne : l ≠ [])
    (h : ∀ x ∈ l, 1 ≤ x ∧ x ≤ 5) : 1 ≤ listMean l ∧ listMean l ≤ 5 := by
  have hpos : 0 < l.length := List.length_pos.mpr hne
  have hq : (0 : ℚ) < (l.length : ℚ) := by exact_mod_cast hpos
  have h1 : l.length ≤ l.sum := length_le_sum l (fun x hx => (h x hx).1)
  have h2 : l.sum ≤ 5 * l.length := sum_le_five_mul l (fun x hx => (h x hx).2)
  constructor
  · rw [listMean, le_div_iff₀ hq, one_mul]
    exact_mod_cast h1
  · rw [listMean, div_le_iff₀ hq]
    exact_mod_cast h2

/-- C8: for a product with at least one review, all ratings lying in
1..5, the rendered overall average encodes a number of tenths between
10 and 50, that is, a numeric value in the closed interval from 1.0 to
5.0. -/
theorem aggregate_average_in_range (db : ReviewTable) (pid : Nat)
    (hne : reviewsFor db pid ≠ [])
    (h : ∀ r ∈ reviewsFor db pid, 1 ≤ r.rating ∧ r.rating ≤ 5) :
    ∃ t : Nat, 10 ≤ t ∧ t ≤ 50 ∧
      (aggregateHandler db pid).overall.average_rating = renderTenths t ∧
      (1 : ℚ) ≤ (t : ℚ) / 10 ∧ (t : ℚ) / 10 ≤ 5 := by
  have havg : (aggregateHandler db pid).overall.average_rating =
      toFixed1 (listMean (ratingsFor db pid)) := by
    simp [aggregateHandler, overallStatsQuery, sqlAVG, ratingsFor, hne]
  have hb : 1 ≤ listMean (ratingsFor db pid) ∧
      listMean (ratingsFor db pid) ≤ 5 := by
    apply listMean_bounds
    · intro hmapnil
      exact hne (List.map_eq_nil_iff.mp hmapnil)
    · intro x hx
      simp only [ratingsFor, List.mem_map] at hx
      obtain ⟨r, hr, rfl⟩ := hx
      exact h r hr
  set m := listMean (ratingsFor db pid) with hm
  have hten_lo : (10 : Int) ≤ tenths m := by
    rw [tenths, Int.le_floor]
    push_cast
    linarith [hb.1]
  have hten_hi : tenths m ≤ 50 := by
    have h51 : tenths m < 51 := by
      rw [tenths, Int.floor_lt]
      push_cast
      linarith [hb.2]
    omega
  have h10n : 10 ≤ (tenths m).toNat := by omega
  have h50n : (tenths m).toNat ≤ 50 := by omega
  refine ⟨(tenths m).toNat, h10n, h50n, by rw [havg, toFixed1], ?_, ?_⟩
  · rw [le_div_iff₀ (by norm_num : (0 : ℚ) < 10), one_mul]
    exact_mod_cast h10n
  · rw [div_le_iff₀ (by norm_num : (0 : ℚ) < 10)]
    have hc : ((tenths m).toNat : ℚ) ≤ 50 := by exact_mod_cast h50n
    linarith

/-- Witness for C8 at the specification's worked scenario. -/
theorem aggregate_average_in_range_witness :
    ∃ t : Nat, 10 ≤ t ∧ t ≤ 50 ∧
      (aggregateHandler sampleDb 1).overall.average_rating = renderTenths t ∧
      (1 : ℚ) ≤ (t : ℚ) / 10 ∧ (t : ℚ) / 10 ≤ 5 :=
  aggregate_average_in_range sampleDb 1 (by decide) (by decide)

lemma natTruthy_some {x : Option Nat} (h : natTruthy x = true) :
    x = some (x.getD 0) := by
  cases x with
  | none => simp [natTruthy] at h
  | some n => rfl

lemma strTruthy_some {x : Option String} (h : strTruthy x = true) :
    x = some (x.getD "") := by
  cases x with
  | none => simp [strTruthy] at h
  | some s => rfl

/-- Request body whose six required fields are all present, with a valid
rating of 3, but whose title is the empty string. -/
def blankTitleInput : ReviewInput :=
  { product_id := some 7
  , source := some "Amazon"
  , reviewer_name := some "Ann"
  , rating := some 3
  , title := some ""
  , content := some "fine" }

/-- Counterexample to C3 as stated: a request with every required field
present and rating 3 is nevertheless rejected with a 400 (the handler
tests JavaScript truthiness, so a present-but-empty title fails the
required-field guard), and no row is stored. -/
theorem post_present_fields_rejected :
    blankTitleInput.product_id.isSome = true ∧
    blankTitleInput.source.isSome = true ∧
    blankTitleInput.reviewer_name.isSome = true ∧
    blankTitleInput.rating = some 3 ∧
    blankTitleInput.title.isSome = true ∧
    blankTitleInput.content.isSome = true ∧
    (postReviews sampleDb 40 blankTitleInput).1 =
      .badRequest missingFieldsMsg ∧
    (postReviews sampleDb 40 blankTitleInput).2 = sampleDb := by
  decide

/-- C3 (amended): the insert fails with a 400 and stores nothing when a
required field is absent or JavaScript-falsy (empty string, zero), or
when the rating lies outside 1..5; otherwise it succeeds, storing and
returning a row with the assigned identifier and the server-set
timestamp. -/
theorem post_review_validation (db : ReviewTable) (now : Nat)
    (inp : ReviewInput) :
    (requiredTruthy inp = false →
      postReviews db now inp = (.badRequest missingFieldsMsg, db)) ∧
    (∀ v : Int, requiredTruthy inp = true → inp.rating = some v →
      (v < 1 ∨ 5 < v) →
      postReviews db now inp = (.badRequest ratingRangeMsg, db)) ∧
    (∀ v : Int, requiredTruthy inp = true → inp.rating = some v →
      1 ≤ v → v ≤ 5 →
      ∃ row : Review,
        postReviews db now inp = (.created row, db ++ [row]) ∧
        row.id = nextId db ∧
        row.created_at = now ∧
        inp.product_id = some row.product_id ∧
        inp.source = some row.source ∧
        inp.reviewer_name = some row.reviewer_name ∧
        (row.rating : Int) = v ∧
        inp.title = some row.title ∧
        inp.content = some row.content) := by
  refine ⟨?_, ?_, ?_⟩
  · intro hf
    simp [postReviews, hf]
  · intro v ht hv hrange
    have hg : inp.rating.getD 0 = v := by rw [hv]; rfl
    rcases hrange with hcase | hcase <;>
      simp [postReviews, ht, hg, hcase]
  · intro v ht hv h1 h5
    have hg : inp.rating.getD 0 = v := by rw [hv]; rfl
    have hn1 : ¬v < 1 := by omega
    have hn5 : ¬5 < v := by omega
    have ht' := ht
    simp only [requiredTruthy, Bool.and_eq_true] at ht'
    obtain ⟨⟨⟨⟨⟨hp, hs⟩, hrn⟩, _⟩, hti⟩, hc⟩ := ht'
    refine ⟨{ id := nextId db
            , product_id := inp.product_id.getD 0
            , source := inp.source.getD ""
            , external_id := inp.external_id
            , reviewer_name := inp.reviewer_name.getD ""
            , rating := (inp.rating.getD 0).toNat
            , title := inp.title.getD ""
            , content := inp.content.getD ""
            , review_date := inp.review_date
            , verified_purchase := inp.verified_purchase
            , helpful_votes := inp.helpful_votes
            , created_at := now }, ?_, rfl, rfl, ?_, ?_, ?_, ?_, ?_, ?_⟩
    · simp [postReviews, ht, hg, hn1, hn5]
    · exact natTruthy_some hp
    · exact strTruthy_some hs
    · exact strTruthy_some hrn
    · show ((inp.rating.getD 0).toNat : Int) = v
      rw [hg]
      omega
    · exact strTruthy_some hti
    · exact strTruthy_some hc

/-- Valid request body with rating 3. -/
def ratingThreeInput : ReviewInput :=
  { product_id := some 1
  , source := some "Amazon"
  , reviewer_name := some "Zoe"
  , rating := some 3
  , title := some "ok"
  , content := some "fine" }

/-- Request body identical to `ratingThreeInput` except `rating = 6`. -/
def ratingSixInput : ReviewInput :=
  { ratingThreeInput with rating := some 6 }

/-- Request body identical to `ratingThreeInput` except `rating = 0`. -/
def ratingZeroInput : ReviewInput :=
  { ratingThreeInput with rating := some 0 }

/-- Witness for the amended C3: rating 6 and rating 0 are rejected with
a 400 and leave the table unchanged, while rating 3 with truthy fields
is stored under the assigned identifier and timestamp. -/
theorem post_review_validation_witness :
    postReviews sampleDb 40 ratingSixInput =
      (.badRequest ratingRangeMsg, sampleDb) ∧
    postReviews sampleDb 40 ratingZeroInput =
      (.badRequest missingFieldsMsg, sampleDb) ∧
    (∃ row : Review,
      postReviews sampleDb 40 ratingThreeInput =
        (.created row, sampleDb ++ [row]) ∧
      row.id = nextId sampleDb ∧
      row.created_at = 40 ∧
      ratingThreeInput.product_id = some row.product_id ∧
      ratingThreeInput.source = some row.source ∧
      ratingThreeInput.reviewer_name = some row.reviewer_name ∧
      (row.rating : Int) = 3 ∧
      ratingThreeInput.title = some row.title ∧
      ratingThreeInput.content = some row.content) := by
  refine ⟨?_, ?_, ?_⟩
  · exact (post_review_validation sampleDb 40 ratingSixInput).2.1 6
      (by decide) rfl (Or.inr (by norm_num))
  · exact (post_review_validation sampleDb 40 ratingZeroInput).1 (by decide)
  · exact (post_review_validation sampleDb 40 ratingThreeInput).2.2 3
      (by decide) rfl (by norm_num) (by norm_num)

lemma countP_id_split (l : List Review) (rid : Nat) :
    l.countP (fun r => r.id == rid) + l.countP (fun r => r.id != rid) =
      l.length := by
  induction l with
  | nil => rfl
  | cons a t ih =>
    simp only [bne] at ih ⊢
    by_cases h : a.id = rid <;> simp [List.countP_cons, h] <;> omega

/-- C4: deleting a nonexistent identifier answers 404 and changes
nothing; deleting an existing identifier (identifiers being unique, as
the primary key guarantees) answers 204, removes exactly that row,
keeps every other row, and a second delete of the same identifier
answers 404 over the unchanged remainder. -/
theorem delete_review (db : ReviewTable) (rid : Nat) :
    ((rid ∉ db.map (fun r => r.id)) →
      deleteReviews db rid = (.notFound, db)) ∧
    ((db.map (fun r => r.id)).Nodup → rid ∈ db.map (fun r => r.id) →
      deleteReviews db rid =
        (.noContent, db.filter (fun x => x.id != rid)) ∧
      (deleteReviews db rid).2.length + 1 = db.length ∧
      (∀ x ∈ db, x.id ≠ rid → x ∈ (deleteReviews db rid).2) ∧
      (∀ x ∈ (deleteReviews db rid).2, x ∈ db ∧ x.id ≠ rid) ∧
      deleteReviews (deleteReviews db rid).2 rid =
        (.notFound, (deleteReviews db rid).2)) := by
  constructor
  · intro hno
    have h0 : db.countP (fun r => r.id == rid) = 0 := by
      rw [List.countP_eq_zero]
      intro r hr
      simp only [beq_iff_eq]
      intro hid
      exact hno (List.mem_map.mpr ⟨r, hr, hid⟩)
    simp [deleteReviews, h0]
  · intro hnd hmem
    have hcnt : db.countP (fun r => r.id == rid) = 1 := by
      have hone := List.count_eq_one_of_mem hnd hmem
      rw [List.count, List.countP_map] at hone
      exact hone
    have hne0 : ¬db.countP (fun r => r.id == rid) = 0 := by omega
    have hres : deleteReviews db rid =
        (.noContent, db.filter (fun x => x.id != rid)) := by
      simp [deleteReviews, hne0]
    refine ⟨hres, ?_, ?_, ?_, ?_⟩
    · rw [hres]
      have hflen : (db.filter (fun x => x.id != rid)).length =
          db.countP (fun x => x.id != rid) :=
        (List.countP_eq_length_filter _ _).symm
      have hsum := countP_id_split db rid
      simp only [hflen]
      omega
    · intro x hx hxid
      rw [hres]
      exact List.mem_filter.mpr ⟨hx, by simpa using hxid⟩
    · intro x hx
      rw [hres] at hx
      have := List.mem_filter.mp hx
      exact ⟨this.1, by simpa using this.2⟩
    · rw [hres]
      have h0 : (db.filter (fun x => x.id != rid)).countP
          (fun r => r.id == rid) = 0 := by
        rw [List.countP_eq_zero]
        intro a ha
        have := (List.mem_filter.mp ha).2
        simpa using this
      simp [deleteReviews, h0]

/-- Witness for C4 at the sample table: deleting review 2 answers 204
and removes one row, deleting it again answers 404, and deleting the
absent identifier 99 answers 404. -/
theorem delete_review_witness :
    deleteReviews sampleDb 2 =
      (.noContent, sampleDb.filter (fun x => x.id != 2)) ∧
    (deleteReviews sampleDb 2).2.length + 1 = sampleDb.length ∧
    deleteReviews (deleteReviews sampleDb 2).2 2 =
      (.notFound, (deleteReviews sampleDb 2).2) ∧
    deleteReviews sampleDb 99 = (.notFound, sampleDb) := by
  have h2 := (delete_review sampleDb 2).2 (by decide) (by decide)
  have h99 := (delete_review sampleDb 99).1 (by decide)
  exact ⟨h2.1, h2.2.1, h2.2.2.2.2, h99⟩
